import Mathlib

/-!
# Verification of the mock-api request-simulation engine

Shallow embedding of the core of the `mock-api` Go server: the adaptive
error-rate controller (`ErrorSimulator`), the latency sampler (`getLatency`),
the response-override resolver (`getResponseData`), the chunked-stream
emitter (`streamResponse`) and the per-request dispatcher (`handleRequest`).

Modelling conventions:
* Go `float64` values are idealised as rationals (`ℚ`); `rand.Float64()`
  draws become explicit parameters `u : ℚ` assumed to lie in `[0, 1)`.
* The `uint64` counters of the simulator are modelled as unbounded `Nat`
  (wraparound after `2^64` calls is out of scope).
* Go `interface{}` values coming from YAML are the inductive `GoValue`;
  parsed JSON documents are the inductive `JValue`.
* `encoding/json` is external library code: serialisation is a parameter
  `marshal : GoValue → List Nat` (bytes), and parsing a raw string is a
  parameter `parseJSON : String → Option JValue` (`none` = malformed).
  Decoding a parsed document into `map[string]interface{}` succeeds exactly
  when the top level is a JSON object; this part is modelled explicitly.
* An HTTP response is its `Content-Type` header, status code and body,
  the body being a list of `Frame`s: a plain byte write, an SSE
  `data: <chunk>`+blank-line frame, or the `data: [DONE]` sentinel frame.
* `time.Sleep` affects only timing, never the bytes written; latency draws
  are threaded where the source consumes them.
-/

namespace MockAPI

/-- A parsed JSON document (what a successful `json` parse yields).
Objects are association lists of string keys. -/
inductive JValue where
  | null
  | bool (b : Bool)
  | num (q : ℚ)
  | str (s : String)
  | arr (elems : List JValue)
  | obj (fields : List (String × JValue))

/-- A Go `interface{}` value as produced by the YAML loader or by JSON
decoding: scalars, slices, string-keyed maps (`map[string]interface{}`)
and arbitrary-keyed maps (`map[interface{}]interface{}`).
`nilStrMap` is the nil `map[string]interface{}` — what decoding a
top-level JSON `null` into a map target leaves behind; it is distinct
from the empty map (it marshals as `null`, not as an empty object). -/
inductive GoValue where
  | null
  | bool (b : Bool)
  | num (q : ℚ)
  | str (s : String)
  | arr (elems : List GoValue)
  | strMap (fields : List (String × GoValue))
  | nilStrMap
  | anyMap (fields : List (GoValue × GoValue))

/-- Models `fmt.Sprintf("%v", k)` on a map key. YAML map keys are scalars
in practice; composite keys get a fixed placeholder rendering (no claim
depends on the rendering of keys). -/
def goFormat : GoValue → String
  | .null => "<nil>"
  | .bool b => if b then "true" else "false"
  | .num q => toString q
  | .str s => s
  | .arr _ => "<slice>"
  | .strMap _ => "<map>"
  | .nilStrMap => "map[]"
  | .anyMap _ => "<map>"

mutual

/-- Source `convertToJSONCompatible` (handler file): rewrites
`map[interface{}]interface{}` into `map[string]interface{}` with keys
formatted by `%v`, recurses into slices in place, and returns every other
value (including `map[string]interface{}`) unchanged — the `default`
branch of the Go type switch does not recurse. -/
def convertToJSONCompatible : GoValue → GoValue
  | .anyMap fields => .strMap (convertAnyFields fields)
  | .arr elems => .arr (convertElems elems)
  | .null => .null
  | .bool b => .bool b
  | .num q => .num q
  | .str s => .str s
  | .strMap fields => .strMap fields
  | .nilStrMap => .nilStrMap

/-- Element-wise conversion of a Go slice (the `[]interface{}` case). -/
def convertElems : List GoValue → List GoValue
  | [] => []
  | x :: xs => convertToJSONCompatible x :: convertElems xs

/-- Field-wise conversion of a `map[interface{}]interface{}`. -/
def convertAnyFields : List (GoValue × GoValue) → List (String × GoValue)
  | [] => []
  | (k, v) :: fs => (goFormat k, convertToJSONCompatible v) :: convertAnyFields fs

end

mutual

/-- How `encoding/json` materialises a parsed document as `interface{}`:
objects become `map[string]interface{}`, arrays become `[]interface{}`. -/
def jValueToGo : JValue → GoValue
  | .null => .null
  | .bool b => .bool b
  | .num q => .num q
  | .str s => .str s
  | .arr elems => .arr (jValuesToGo elems)
  | .obj fields => .strMap (jFieldsToGo fields)

/-- Element-wise `jValueToGo` on a JSON array. -/
def jValuesToGo : List JValue → List GoValue
  | [] => []
  | x :: xs => jValueToGo x :: jValuesToGo xs

/-- Field-wise `jValueToGo` on a JSON object. -/
def jFieldsToGo : List (String × JValue) → List (String × GoValue)
  | [] => []
  | (k, v) :: fs => (k, jValueToGo v) :: jFieldsToGo fs

end

/-- Models `json.Unmarshal(data, &result)` with
`result : map[string]interface{}` applied to an already-parsed document
(`none` = the text was malformed). A top-level object decodes into the
map; a top-level `null` also succeeds — unmarshalling JSON `null` into a
Go value produces no error and has no effect, leaving `result` the nil
map; every other top-level document (array, number, string, boolean) is a
type mismatch and decoding fails. -/
def unmarshalToStringMap : Option JValue → Option GoValue
  | some (.obj fields) => some (.strMap (jFieldsToGo fields))
  | some .null => some .nilStrMap
  | _ => none

/-- Source `ErrorSimulator` struct: target frequency plus the two shared
counters (`uint64` in Go, modelled as `Nat`). -/
structure ErrorSimulator where
  targetFrequency : ℚ
  totalRequests : Nat
  totalErrors : Nat
  deriving Repr, DecidableEq

/-- Source `NewErrorSimulator`: both counters start at zero. -/
def NewErrorSimulator (frequency : ℚ) : ErrorSimulator :=
  { targetFrequency := frequency, totalRequests := 0, totalErrors := 0 }

/-- Source `ShouldError`, one call, with the uniform draw `u` made
explicit: increments `totalRequests`, computes the observed rate over the
incremented count, adjusts the probability by ×1.5 / ×0.5 / ×1 according
to whether the observed rate is below / above / at the target, and
returns `true` (incrementing `totalErrors`) iff `u < adjustedProb`.
No clamping of `adjustedProb` is performed. -/
def ShouldError (e : ErrorSimulator) (u : ℚ) : Bool × ErrorSimulator :=
  let requests := e.totalRequests + 1
  let currentRate : ℚ := (e.totalErrors : ℚ) / (requests : ℚ)
  let adjustedProb : ℚ :=
    if currentRate < e.targetFrequency then e.targetFrequency * (3 / 2)
    else if currentRate > e.targetFrequency then e.targetFrequency * (1 / 2)
    else e.targetFrequency
  let shouldErr : Bool := decide (u < adjustedProb)
  (shouldErr,
   { e with
     totalRequests := requests,
     totalErrors := e.totalErrors + (if shouldErr then 1 else 0) })

/-- Source `GetCurrentErrorRate`: `totalErrors / totalRequests`, or `0`
when no requests have been observed. A pure read: it takes the state and
returns a rational, leaving the counters untouched. -/
def GetCurrentErrorRate (e : ErrorSimulator) : ℚ :=
  if e.totalRequests = 0 then 0
  else (e.totalErrors : ℚ) / (e.totalRequests : ℚ)

/-- Iterated `ShouldError`: runs one call per uniform draw in the list,
threading the simulator state. -/
def runSim (e : ErrorSimulator) : List ℚ → ErrorSimulator
  | [] => e
  | u :: us => runSim (ShouldError e u).2 us

/-- Source `LatencyConfig` (the fields `getLatency` reads): the two
latency bounds in milliseconds, `float64` in Go. -/
structure LatencyConfig where
  low : ℚ
  high : ℚ
  deriving Repr, DecidableEq

/-- Source `ErrorResponseConfig`: status code, structured error body and
target error frequency. -/
structure ErrorResponseConfig where
  code : Nat
  body : GoValue
  frequency : ℚ

/-- Source `Config`, the fields the request core reads. The bootstrap-only
fields (`APISpec` and the URL base segment prepended to routes) are consumed before dispatch and are
omitted. `Responses` (`map[string]interface{}`) is an association list
with unique keys; a raw-text override is a `GoValue.str`. -/
structure Config where
  latency : LatencyConfig
  responses : List (String × GoValue)
  errorResponse : ErrorResponseConfig

/-- Source `getLatency` with the uniform draw `u` explicit:
`low + u * (high - low)`. -/
def getLatency (config : Config) (u : ℚ) : ℚ :=
  config.latency.low + u * (config.latency.high - config.latency.low)

/-- Models `strings.TrimRight(path, "/")`: removes every trailing
slash character. -/
def trimTrailingSlashes (s : String) : String :=
  String.mk ((s.data.reverse.dropWhile (fun c => c = '/')).reverse)

/-- Go map lookup `config.Responses[normalizedPath]` on the association
list (keys are unique, so first match is the match). -/
def lookupResponse (responses : List (String × GoValue)) (key : String) : Option GoValue :=
  (responses.find? (fun p => p.1 = key)).map (fun p => p.2)

/-- Source `getResponseData`: trims trailing slashes from the path, then
* if a raw-text (`string`) override exists: decodes it into a
  `map[string]interface{}` — on any decode failure it returns the fixed
  fallback `{error: Invalid JSON override}` map;
* if a structured override exists: returns `convertToJSONCompatible` of it;
* otherwise returns the default `{message: Response for <path>}` map.
`parseJSON` models the external JSON text parser applied to the raw
override string. -/
def getResponseData (parseJSON : String → Option JValue) (path : String)
    (config : Config) : GoValue :=
  let normalizedPath := trimTrailingSlashes path
  match lookupResponse config.responses normalizedPath with
  | some override =>
    match override with
    | .str v =>
      match unmarshalToStringMap (parseJSON v) with
      | none => GoValue.strMap [("error", GoValue.str "Invalid JSON override")]
      | some result => result
    | _ => convertToJSONCompatible override
  | none =>
    GoValue.strMap [("message", GoValue.str ("Response for " ++ normalizedPath))]

/-- One element of a response body: a plain byte write, an SSE data frame
(`data: <chunk>` + blank line), or the terminal `data: [DONE]` frame. -/
inductive Frame where
  | raw (bytes : List Nat)
  | data (chunk : List Nat)
  | done
  deriving Repr, DecidableEq

/-- `true` exactly on SSE data frames. -/
def Frame.isData : Frame → Bool
  | .data _ => true
  | _ => false

/-- `true` exactly on the `data: [DONE]` sentinel frame. -/
def Frame.isDone : Frame → Bool
  | .done => true
  | _ => false

/-- An HTTP response as the core writes it: `Content-Type` header, status
code, and the ordered body frames. -/
structure HttpResponse where
  contentType : String
  status : Nat
  bodyFrames : List Frame
  deriving Repr

/-- The chunking loop of `streamResponse`: starting at the head, take
`chunkSize` bytes per iteration (the last chunk may be shorter). In the
source, chunk size `0` is reachable only with an empty buffer (the loop
body never runs); the `0` row mirrors that by yielding no chunks. -/
def chunksOf : Nat → List α → List (List α)
  | _, [] => []
  | 0, _ :: _ => []
  | cs + 1, x :: xs =>
    ((x :: xs).take (cs + 1)) :: chunksOf (cs + 1) ((x :: xs).drop (cs + 1))
termination_by _cs l => l.length
decreasing_by simp [List.length_drop]; omega

/-- The chunk size `streamResponse` computes for a buffer of `n` bytes:
`n / 3` (`chunkCount := 3` in the source), replaced by `n` when that
integer division is `0`. -/
def streamChunkSize (n : Nat) : Nat :=
  if n / 3 = 0 then n else n / 3

/-- The chunk sequence of `streamResponse` for a marshalled payload: the
chunking loop at the computed chunk size. -/
def streamChunks (jsonBytes : List Nat) : List (List Nat) :=
  chunksOf (streamChunkSize jsonBytes.length) jsonBytes

/-- The frame sequence `streamResponse` writes for a marshalled payload:
each chunk becomes one `data:` frame; one `[DONE]` sentinel frame is
written after the loop. -/
def streamFrames (jsonBytes : List Nat) : List Frame :=
  (streamChunks jsonBytes).map Frame.data ++ [Frame.done]

/-- Source `streamResponse`: sets `Content-Type: text/event-stream`
(status stays the Go default 200, no `WriteHeader` call), marshals the
value once and emits `streamFrames` of the bytes. The inter-chunk sleeps
consume latency draws but never change the bytes written. Marshalling of
the modelled `GoValue`s cannot fail, so the internal-error branch of the
source is unreachable here. -/
def streamResponse (responseData : GoValue) (marshal : GoValue → List Nat) :
    HttpResponse :=
  { contentType := "text/event-stream"
    status := 200
    bodyFrames := streamFrames (marshal responseData) }

/-- Source `normalResponse`: `Content-Type: application/json`, Go default
status 200, body written by `json.Encoder.Encode` (which appends one
newline byte, 10). -/
def normalResponse (responseData : GoValue) (marshal : GoValue → List Nat) :
    HttpResponse :=
  { contentType := "application/json"
    status := 200
    bodyFrames := [Frame.raw (marshal responseData ++ [10])] }

/-- Source `simulateError` (current handler): unconditionally sets
`Content-Type: application/json`, writes the configured status code, and
writes the JSON encoding of the converted error body as one plain write —
it never looks at the streaming flag, adds no `data:` framing and no
`[DONE]` sentinel. -/
def simulateError (config : Config) (marshal : GoValue → List Nat) :
    HttpResponse :=
  { contentType := "application/json"
    status := config.errorResponse.code
    bodyFrames := [Frame.raw (marshal (convertToJSONCompatible config.errorResponse.body))] }

/-- Source `handleRequest` with the random draws explicit: sleeps a
sampled latency (`uLat`; timing only), asks `ShouldError` (`uErr`), and
either writes the simulated error or resolves the response data and
writes it streamed (`streaming = true`, from `stream=true` in the query)
or as a single JSON document. Returns the response together with the
updated simulator state. -/
def handleRequest (parseJSON : String → Option JValue)
    (marshal : GoValue → List Nat) (path : String) (streaming : Bool)
    (config : Config) (sim : ErrorSimulator) (uLat uErr : ℚ) :
    HttpResponse × ErrorSimulator :=
  let _chosenLatency := getLatency config uLat
  let res := ShouldError sim uErr
  if res.1 then
    (simulateError config marshal, res.2)
  else
    let responseData := getResponseData parseJSON path config
    if streaming then
      (streamResponse responseData marshal, res.2)
    else
      (normalResponse responseData marshal, res.2)

/-- Iterated dispatch against one shared simulator: one `handleRequest`
per pair of draws `(uLat, uErr)`, collecting the responses. -/
def runDispatch (parseJSON : String → Option JValue)
    (marshal : GoValue → List Nat) (path : String) (streaming : Bool)
    (config : Config) : ErrorSimulator → List (ℚ × ℚ) → List HttpResponse
  | _, [] => []
  | sim, (uLat, uErr) :: rest =>
    let step := handleRequest parseJSON marshal path streaming config sim uLat uErr
    step.1 :: runDispatch parseJSON marshal path streaming config step.2 rest

/-- A trivial instantiation of the external JSON text parser, for concrete
examples: every raw string is treated as malformed. -/
def parseNone : String → Option JValue := fun _ => none

/-- A trivial instantiation of the external serialiser, for concrete
examples: every value marshals to a fixed one-byte buffer. -/
def marshalConst : GoValue → List Nat := fun _ => [48]

/-- A concrete configuration for examples, mirroring the test
config: error code 500, body `{error: simulated error}`, latency 10–20 ms. -/
def sampleConfig : Config :=
  { latency := { low := 10, high := 20 }
    responses := []
    errorResponse :=
      { code := 500
        body := GoValue.strMap [("error", GoValue.str "simulated error")]
        frequency := 1 } }

/-! ## Helper lemmas about the error simulator -/

/-- One `ShouldError` call increments `totalRequests` by exactly one. -/
theorem ShouldError_requests (e : ErrorSimulator) (u : ℚ) :
    (ShouldError e u).2.totalRequests = e.totalRequests + 1 := rfl

/-- One `ShouldError` call leaves the target frequency unchanged. -/
theorem ShouldError_target (e : ErrorSimulator) (u : ℚ) :
    (ShouldError e u).2.targetFrequency = e.targetFrequency := rfl

/-- One `ShouldError` call increments `totalErrors` exactly when it
returns `true`. -/
theorem ShouldError_errors (e : ErrorSimulator) (u : ℚ) :
    (ShouldError e u).2.totalErrors =
      e.totalErrors + (if (ShouldError e u).1 then 1 else 0) := rfl

/-- `runSim` on a cons peels one `ShouldError` call. -/
theorem runSim_cons (e : ErrorSimulator) (u : ℚ) (us : List ℚ) :
    runSim e (u :: us) = runSim (ShouldError e u).2 us := rfl

/-- Both counters are non-decreasing across any run of `ShouldError`
calls. -/
theorem runSim_counters_mono (us : List ℚ) : ∀ e : ErrorSimulator,
    e.totalRequests ≤ (runSim e us).totalRequests ∧
    e.totalErrors ≤ (runSim e us).totalErrors := by
  induction us with
  | nil => intro e; exact ⟨le_refl _, le_refl _⟩
  | cons u us ih =>
    intro e
    have h := ih (ShouldError e u).2
    rw [runSim_cons]
    constructor
    · refine le_trans ?_ h.1
      rw [ShouldError_requests]; omega
    · refine le_trans ?_ h.2
      rw [ShouldError_errors]; omega

/-- A single `ShouldError` call preserves `totalErrors ≤ totalRequests`. -/
theorem ShouldError_invariant (e : ErrorSimulator) (u : ℚ)
    (h : e.totalErrors ≤ e.totalRequests) :
    (ShouldError e u).2.totalErrors ≤ (ShouldError e u).2.totalRequests := by
  rw [ShouldError_errors, ShouldError_requests]
  split <;> omega

/-- Any run of `ShouldError` calls preserves
`totalErrors ≤ totalRequests`. -/
theorem runSim_invariant (us : List ℚ) : ∀ e : ErrorSimulator,
    e.totalErrors ≤ e.totalRequests →
    (runSim e us).totalErrors ≤ (runSim e us).totalRequests := by
  induction us with
  | nil => intro e h; exact h
  | cons u us ih =>
    intro e h
    rw [runSim_cons]
    exact ih _ (ShouldError_invariant e u h)

/-! ## Claim C1 -/

/-- The per-call adjusted probability exactly as the specification words
it, as a function of the target frequency and the observed rate. It is
not clamped into `[0, 1]`. -/
def adjustedProbSpec (targetFrequency observedRate : ℚ) : ℚ :=
  if observedRate < targetFrequency then targetFrequency * (3 / 2)
  else if observedRate > targetFrequency then targetFrequency * (1 / 2)
  else targetFrequency

/-- The decision of one `ShouldError` call is exactly the comparison of
the draw against `adjustedProbSpec` at the post-increment observed rate. -/
theorem ShouldError_decision (e : ErrorSimulator) (u : ℚ) :
    (ShouldError e u).1 =
      decide (u < adjustedProbSpec e.targetFrequency
        ((e.totalErrors : ℚ) / ((e.totalRequests : ℚ) + 1))) := by
  have hcast : ((e.totalRequests + 1 : ℕ) : ℚ) = (e.totalRequests : ℚ) + 1 := by
    push_cast; ring
  simp only [ShouldError, adjustedProbSpec, hcast]

/-- Claim C1: every `ShouldError` call increments `totalRequests`,
computes the observed rate `totalErrors / totalRequests` over the
incremented count, and returns `true` (incrementing `totalErrors`) iff
the uniform draw is below the unclamped adjusted probability
(×1.5 below target, ×0.5 above target, ×1 at target). The last conjunct
exhibits the absence of clamping: at target frequency `4/5` a fresh
observed rate of `0` yields an adjusted probability above `1`. -/
theorem shouldError_adaptive_step (e : ErrorSimulator) (u : ℚ) :
    (ShouldError e u).2.totalRequests = e.totalRequests + 1 ∧
    (ShouldError e u).1 =
      decide (u < adjustedProbSpec e.targetFrequency
        ((e.totalErrors : ℚ) / ((e.totalRequests : ℚ) + 1))) ∧
    (ShouldError e u).2.totalErrors =
      e.totalErrors + (if (ShouldError e u).1 then 1 else 0) ∧
    (ShouldError e u).2.targetFrequency = e.targetFrequency ∧
    (1 : ℚ) < adjustedProbSpec (4 / 5) 0 :=
  ⟨rfl, ShouldError_decision e u, rfl, rfl, by norm_num [adjustedProbSpec]⟩

/-! ## Claim C8 -/

/-- Claim C8: `GetCurrentErrorRate` returns `0` on a fresh simulator and
`totalErrors / totalRequests` whenever at least one request has been
observed. It is a pure read: it takes the state and returns a rational,
so the counters are untouched by construction of the embedding. -/
theorem getCurrentErrorRate_spec :
    (∀ f : ℚ, GetCurrentErrorRate (NewErrorSimulator f) = 0) ∧
    (∀ e : ErrorSimulator, e.totalRequests ≠ 0 →
      GetCurrentErrorRate e = (e.totalErrors : ℚ) / (e.totalRequests : ℚ)) := by
  constructor
  · intro f; rfl
  · intro e h; simp [GetCurrentErrorRate, h]

/-- Witness for C8 at concrete states: a fresh simulator reads `0`, and a
state with 4 requests and 1 error reads `1/4`. -/
theorem getCurrentErrorRate_spec_witness :
    GetCurrentErrorRate (NewErrorSimulator (1 / 2)) = 0 ∧
    GetCurrentErrorRate
      { targetFrequency := 1 / 2, totalRequests := 4, totalErrors := 1 } = 1 / 4 := by
  constructor
  · exact getCurrentErrorRate_spec.1 (1 / 2)
  · have h := getCurrentErrorRate_spec.2
      { targetFrequency := 1 / 2, totalRequests := 4, totalErrors := 1 } (by decide)
    rw [h]; norm_num

/-! ## Claim C9 -/

/-- Claim C9: from a fresh simulator, after any sequence of `ShouldError`
calls the invariant `totalErrors ≤ totalRequests` holds (every observable
instant is the state after running some leading segment of the draw list,
and `GetCurrentErrorRate` is
a pure read that never changes the state), and both counters are
monotonically non-decreasing across any run of calls from any state. -/
theorem simulator_counter_invariants :
    (∀ (f : ℚ) (us : List ℚ),
      (runSim (NewErrorSimulator f) us).totalErrors ≤
        (runSim (NewErrorSimulator f) us).totalRequests) ∧
    (∀ (e : ErrorSimulator) (us : List ℚ),
      e.totalRequests ≤ (runSim e us).totalRequests ∧
      e.totalErrors ≤ (runSim e us).totalErrors) := by
  constructor
  · intro f us
    exact runSim_invariant us (NewErrorSimulator f) (by simp [NewErrorSimulator])
  · intro e us
    exact runSim_counters_mono us e

/-! ## Claim C7 -/

/-- Claim C7: for a configured latency range with `low ≤ high`, every
value `getLatency` returns for a uniform draw in `[0, 1)` lies in the
closed interval `[low, high]`, and when `low = high` it returns exactly
that constant. -/
theorem getLatency_within_range (config : Config) (u : ℚ)
    (hu0 : 0 ≤ u) (hu1 : u < 1)
    (hlh : config.latency.low ≤ config.latency.high) :
    config.latency.low ≤ getLatency config u ∧
    getLatency config u ≤ config.latency.high ∧
    (config.latency.low = config.latency.high →
      getLatency config u = config.latency.low) := by
  unfold getLatency
  refine ⟨?_, ?_, ?_⟩
  · nlinarith
  · nlinarith
  · intro h; rw [h]; ring

/-- Witness for C7 at the sample configuration (range `[10, 20]`) and the
draw `1/2`. -/
theorem getLatency_within_range_witness :
    sampleConfig.latency.low ≤ getLatency sampleConfig (1 / 2) ∧
    getLatency sampleConfig (1 / 2) ≤ sampleConfig.latency.high ∧
    (sampleConfig.latency.low = sampleConfig.latency.high →
      getLatency sampleConfig (1 / 2) = sampleConfig.latency.low) :=
  getLatency_within_range sampleConfig (1 / 2) (by norm_num) (by norm_num) (by decide)

/-! ## Claim C6 -/

/-- Claim C6: for a path with no entry in the override table (after
normalising the path by trimming trailing slashes, as
`strings.TrimRight(path, "/")` does), the resolver returns exactly the
default `{message: Response for <normalizedPath>}` value; in particular
resolving `/v1/test` against an empty table returns
`{message: Response for /v1/test}`. -/
theorem resolve_default_message (parseJSON : String → Option JValue)
    (path : String) (config : Config)
    (h : lookupResponse config.responses (trimTrailingSlashes path) = none) :
    getResponseData parseJSON path config =
      GoValue.strMap
        [("message", GoValue.str ("Response for " ++ trimTrailingSlashes path))] ∧
    getResponseData parseJSON "/v1/test" { config with responses := [] } =
      GoValue.strMap [("message", GoValue.str "Response for /v1/test")] := by
  constructor
  · simp only [getResponseData, h]
  · rfl

/-- Witness for C6: resolving `/v1/test` against the sample configuration
(whose override table is empty). -/
theorem resolve_default_message_witness :
    getResponseData parseNone "/v1/test" sampleConfig =
      GoValue.strMap [("message", GoValue.str "Response for /v1/test")] :=
  (resolve_default_message parseNone "/v1/test" sampleConfig rfl).1

/-! ## Claim C5 -/

/-- Claim C5: when the override for the (normalised) path is raw text
that fails to parse as JSON, the resolver returns exactly
`{error: Invalid JSON override}`, and a dispatch on which the error
simulator does not fire still completes as a plain 200 JSON response
carrying that fallback value — the parse failure is never surfaced as a
simulated error. -/
theorem invalid_override_fallback (parseJSON : String → Option JValue)
    (marshal : GoValue → List Nat) (path s : String) (config : Config)
    (sim : ErrorSimulator) (uLat uErr : ℚ)
    (hov : lookupResponse config.responses (trimTrailingSlashes path) =
      some (GoValue.str s))
    (hparse : parseJSON s = none)
    (hnoerr : (ShouldError sim uErr).1 = false) :
    getResponseData parseJSON path config =
      GoValue.strMap [("error", GoValue.str "Invalid JSON override")] ∧
    (handleRequest parseJSON marshal path false config sim uLat uErr).1 =
      normalResponse
        (GoValue.strMap [("error", GoValue.str "Invalid JSON override")]) marshal ∧
    (handleRequest parseJSON marshal path false config sim uLat uErr).1.status =
      200 := by
  have hres : getResponseData parseJSON path config =
      GoValue.strMap [("error", GoValue.str "Invalid JSON override")] := by
    simp only [getResponseData, hov, hparse, unmarshalToStringMap]
  refine ⟨hres, ?_, ?_⟩
  · simp only [handleRequest, hnoerr, if_false, Bool.false_eq_true, hres]
  · simp only [handleRequest, hnoerr, if_false, Bool.false_eq_true, hres]
    rfl

/-- A configuration whose override for `/v1/test` is raw text that does
not parse as JSON. -/
def malformedConfig : Config :=
  { sampleConfig with responses := [("/v1/test", GoValue.str "not json")] }

/-- Witness for C5 at the malformed-override configuration, with a fresh
simulator at target frequency `0` (the error draw misses). -/
theorem invalid_override_fallback_witness :
    getResponseData parseNone "/v1/test" malformedConfig =
      GoValue.strMap [("error", GoValue.str "Invalid JSON override")] ∧
    (handleRequest parseNone marshalConst "/v1/test" false malformedConfig
        (NewErrorSimulator 0) 0 (1 / 2)).1 =
      normalResponse
        (GoValue.strMap [("error", GoValue.str "Invalid JSON override")])
        marshalConst ∧
    (handleRequest parseNone marshalConst "/v1/test" false malformedConfig
        (NewErrorSimulator 0) 0 (1 / 2)).1.status = 200 :=
  invalid_override_fallback parseNone marshalConst "/v1/test" "not json"
    malformedConfig (NewErrorSimulator 0) 0 (1 / 2) rfl rfl
    (by norm_num [ShouldError, NewErrorSimulator])

/-! ## Claim C10 -/

/-- The external-parser instantiation that parses every string to the
JSON document `null`. -/
def parseNullDoc : String → Option JValue := fun _ => some JValue.null

/-- A configuration whose override for `/v1/test` is the raw text
`null` — a valid JSON document that is not an object. -/
def nullOverrideConfig : Config :=
  { sampleConfig with responses := [("/v1/test", GoValue.str "null")] }

/-- Claim C10 counterexample: the raw override text `null` parses to a
valid non-object JSON document, yet the resolver returns the nil map the
decode leaves behind — not the `{error: Invalid JSON override}` fallback
— because `json.Unmarshal` of JSON `null` into a map target reports no
error and merely leaves the map nil. -/
theorem null_override_counterexample :
    getResponseData parseNullDoc "/v1/test" nullOverrideConfig =
      GoValue.nilStrMap ∧
    getResponseData parseNullDoc "/v1/test" nullOverrideConfig ≠
      GoValue.strMap [("error", GoValue.str "Invalid JSON override")] := by
  have h1 : getResponseData parseNullDoc "/v1/test" nullOverrideConfig =
      GoValue.nilStrMap := rfl
  refine ⟨h1, ?_⟩
  rw [h1]
  intro h
  exact nomatch h

/-- Claim C10 as amended: when the raw-text override parses to a valid
JSON document that is neither an object nor `null` (an array, a bare
number, …), decoding into `map[string]interface{}` fails and the
resolver returns the fallback `{error: Invalid JSON override}` rather
than the parsed document; when the document is a top-level `null`,
decoding succeeds without error, leaving the map nil, and the resolver
returns that nil map. -/
theorem nonobject_override_fallback (parseJSON : String → Option JValue)
    (path s : String) (config : Config) (doc : JValue)
    (hov : lookupResponse config.responses (trimTrailingSlashes path) =
      some (GoValue.str s))
    (hparse : parseJSON s = some doc)
    (hnotobj : ∀ fields, doc ≠ JValue.obj fields) :
    (doc ≠ JValue.null →
      getResponseData parseJSON path config =
        GoValue.strMap [("error", GoValue.str "Invalid JSON override")]) ∧
    (doc = JValue.null →
      getResponseData parseJSON path config = GoValue.nilStrMap) := by
  constructor
  · intro hnotnull
    have hdec : unmarshalToStringMap (some doc) = none := by
      cases doc with
      | null => exact absurd rfl hnotnull
      | bool b => rfl
      | num q => rfl
      | str s => rfl
      | arr elems => rfl
      | obj fields => exact absurd rfl (hnotobj fields)
    simp only [getResponseData, hov, hparse, hdec]
  · intro hnull
    subst hnull
    simp only [getResponseData, hov, hparse, unmarshalToStringMap]

/-- The parsed document of the raw override text `[1,2,3]`. -/
def arrayOverrideDoc : JValue :=
  JValue.arr [JValue.num 1, JValue.num 2, JValue.num 3]

/-- An external-parser instantiation that parses every string to the
array document `[1,2,3]`. -/
def parseArray : String → Option JValue := fun _ => some arrayOverrideDoc

/-- A configuration whose override for `/v1/test` is the raw text
`[1,2,3]` — valid JSON, but not an object. -/
def arrayOverrideConfig : Config :=
  { sampleConfig with responses := [("/v1/test", GoValue.str "[1,2,3]")] }

/-- Witness for C10 (amended): the valid non-object, non-null override
`[1,2,3]` resolves to the fallback value. -/
theorem nonobject_override_fallback_witness :
    getResponseData parseArray "/v1/test" arrayOverrideConfig =
      GoValue.strMap [("error", GoValue.str "Invalid JSON override")] :=
  (nonobject_override_fallback parseArray "/v1/test" "[1,2,3]"
    arrayOverrideConfig arrayOverrideDoc rfl rfl (fun _ h => nomatch h)).1
    (fun h => nomatch h)

/-! ## Helper lemmas about the chunking loop -/

/-- For a positive chunk size, the chunks concatenate back to the
original buffer. -/
theorem chunksOf_join (cs : Nat) (l : List α) :
    1 ≤ cs → (chunksOf cs l).flatten = l := by
  induction cs, l using chunksOf.induct with
  | case1 x => intro _; simp [chunksOf]
  | case2 head tail => intro h; omega
  | case3 cs x xs ih =>
    intro _
    simp only [chunksOf, List.flatten_cons]
    rw [ih (by omega)]
    exact List.take_append_drop _ _

/-- A buffer of length at most `(cs + 1) * c` yields at most `c` chunks
of size `cs + 1`. -/
theorem chunksOf_length_le (cs : Nat) (c : Nat) : ∀ l : List α,
    l.length ≤ (cs + 1) * c → (chunksOf (cs + 1) l).length ≤ c := by
  induction c with
  | zero =>
    intro l h
    have hl : l = [] := List.eq_nil_of_length_eq_zero (by omega)
    subst hl
    simp [chunksOf]
  | succ c ih =>
    intro l h
    match l with
    | [] => simp [chunksOf]
    | x :: xs =>
      have hmul : (cs + 1) * (c + 1) = (cs + 1) * c + (cs + 1) := Nat.mul_succ _ _
      have hdrop : ((x :: xs).drop (cs + 1)).length ≤ (cs + 1) * c := by
        simp only [List.length_drop, List.length_cons]
        simp only [List.length_cons] at h
        omega
      have hrec := ih _ hdrop
      simp only [chunksOf, List.length_cons]
      omega

/-- A chunk size equal to the (positive) buffer length yields the whole
buffer as a single chunk. -/
theorem chunksOf_full (x : α) (xs : List α) :
    chunksOf (xs.length + 1) (x :: xs) = [x :: xs] := by
  have h1 : (x :: xs).take (xs.length + 1) = x :: xs := by
    rw [← List.length_cons x xs]
    exact List.take_length _
  have h2 : (x :: xs).drop (xs.length + 1) = [] := by
    rw [← List.length_cons x xs]
    exact List.drop_length _
  simp only [chunksOf, h1, h2]

/-- The chunk size of the source is positive on a non-empty buffer. -/
theorem streamChunkSize_pos (n : Nat) (h : 1 ≤ n) : 1 ≤ streamChunkSize n := by
  unfold streamChunkSize
  split <;> omega

/-- Five chunks of the size the source computes always cover the buffer. -/
theorem streamChunkSize_five_cover (n : Nat) : n ≤ streamChunkSize n * 5 := by
  unfold streamChunkSize
  split <;> omega

/-- A `data`-frame list contains no `[DONE]` sentinel. -/
theorem countP_isDone_map_data (l : List (List Nat)) :
    (l.map Frame.data).countP Frame.isDone = 0 := by
  induction l with
  | nil => rfl
  | cons c cs ih => simp [List.countP_cons, Frame.isDone, ih]

/-! ## Claim C2 -/

/-- Claim C2 counterexample: on the 4-byte payload `[48, 49, 50, 51]` the
chunk size is `4 / 3 = 1` and the emitter writes four `data:` frames —
more than the three the claim allows. -/
theorem streamFrames_four_frames_counterexample :
    (streamFrames [48, 49, 50, 51]).countP Frame.isData = 4 ∧
    ¬ (streamFrames [48, 49, 50, 51]).countP Frame.isData ≤ 3 := by
  have h : streamFrames [48, 49, 50, 51] =
      [Frame.data [48], Frame.data [49], Frame.data [50], Frame.data [51],
       Frame.done] := by
    simp [streamFrames, streamChunks, streamChunkSize, chunksOf]
  rw [h]
  decide

/-- Claim C2 as amended: `streamFrames` writes the chunk list as `data:`
frames followed by exactly one `[DONE]` sentinel, which is always the
last frame; the chunks concatenate back to the payload; there are at most
5 data frames (not 3: when `len / 3` does not divide the length the
remainder is emitted as extra shorter chunks, up to 4 frames for `len ≡ 1`
and 5 for `len = 5`); and when the computed chunk size `len / 3` is `0`
(payload shorter than 3 bytes) the whole payload is a single chunk. -/
theorem streamFrames_structure (jsonBytes : List Nat) :
    streamFrames jsonBytes =
      (streamChunks jsonBytes).map Frame.data ++ [Frame.done] ∧
    (streamChunks jsonBytes).flatten = jsonBytes ∧
    (streamChunks jsonBytes).length ≤ 5 ∧
    (streamFrames jsonBytes).countP Frame.isDone = 1 ∧
    (streamFrames jsonBytes).getLast? = some Frame.done ∧
    (jsonBytes ≠ [] → jsonBytes.length < 3 →
      streamChunks jsonBytes = [jsonBytes]) := by
  refine ⟨rfl, ?_, ?_, ?_, ?_, ?_⟩
  · match jsonBytes with
    | [] => simp [streamChunks, streamChunkSize, chunksOf]
    | x :: xs =>
      exact chunksOf_join _ _ (streamChunkSize_pos _ (by simp))
  · match jsonBytes with
    | [] => simp [streamChunks, streamChunkSize, chunksOf]
    | x :: xs =>
      have hpos := streamChunkSize_pos (x :: xs).length (by simp)
      obtain ⟨m, hm⟩ : ∃ m, streamChunkSize (x :: xs).length = m + 1 :=
        ⟨streamChunkSize (x :: xs).length - 1, by omega⟩
      have hcover := streamChunkSize_five_cover (x :: xs).length
      unfold streamChunks
      rw [hm]
      exact chunksOf_length_le m 5 (x :: xs) (by omega)
  · unfold streamFrames
    rw [List.countP_append, countP_isDone_map_data]
    rfl
  · unfold streamFrames
    exact List.getLast?_concat _
  · intro hne hlen
    match jsonBytes, hne with
    | x :: xs, _ =>
      have hsize : streamChunkSize (x :: xs).length = xs.length + 1 := by
        simp only [List.length_cons] at hlen ⊢
        unfold streamChunkSize
        split <;> omega
      unfold streamChunks
      rw [hsize, chunksOf_full]

/-- Witness for C2 (amended) on the 2-byte payload `[48, 49]`: the chunk
size is `2` and the payload is one single chunk. -/
theorem streamFrames_structure_witness :
    streamFrames [48, 49] = [Frame.data [48, 49], Frame.done] := by
  obtain ⟨h1, _, _, _, _, h6⟩ := streamFrames_structure [48, 49]
  rw [h1, h6 (by decide) (by decide)]
  rfl

/-! ## Claim C3 -/

/-- Claim C3 counterexample: with the sample configuration, a fresh
simulator at target frequency 1 and a streaming request, `ShouldError`
fires and the simulated error response carries
`Content-Type: application/json` — not `text/event-stream` — and its body
is one plain write with no `data:` frame and no `[DONE]` sentinel. -/
theorem streaming_error_counterexample :
    (ShouldError (NewErrorSimulator 1) (1 / 2)).1 = true ∧
    (handleRequest parseNone marshalConst "/v1/test" true sampleConfig
        (NewErrorSimulator 1) 0 (1 / 2)).1.contentType = "application/json" ∧
    (handleRequest parseNone marshalConst "/v1/test" true sampleConfig
        (NewErrorSimulator 1) 0 (1 / 2)).1.contentType ≠ "text/event-stream" ∧
    (handleRequest parseNone marshalConst "/v1/test" true sampleConfig
        (NewErrorSimulator 1) 0 (1 / 2)).1.bodyFrames.countP Frame.isData = 0 ∧
    (handleRequest parseNone marshalConst "/v1/test" true sampleConfig
        (NewErrorSimulator 1) 0 (1 / 2)).1.bodyFrames.countP Frame.isDone = 0 := by
  have herr : (ShouldError (NewErrorSimulator 1) (1 / 2)).1 = true := by
    norm_num [ShouldError, NewErrorSimulator]
  have hresp : (handleRequest parseNone marshalConst "/v1/test" true sampleConfig
      (NewErrorSimulator 1) 0 (1 / 2)).1 = simulateError sampleConfig marshalConst := by
    simp only [handleRequest]
    rw [herr]
    rfl
  rw [hresp]
  exact ⟨herr, rfl, by decide, rfl, rfl⟩

/-- Claim C3 as amended: whenever `ShouldError` fires, the response —
streaming requested or not — has `Content-Type: application/json`, the
configured error status code, and a body that is the single plain JSON
encoding of the configured error body, with no `data:` framing and no
`[DONE]` sentinel: the error path is identical to the non-streaming one. -/
theorem simulated_error_response_shape (parseJSON : String → Option JValue)
    (marshal : GoValue → List Nat) (path : String) (streaming : Bool)
    (config : Config) (sim : ErrorSimulator) (uLat uErr : ℚ)
    (herr : (ShouldError sim uErr).1 = true) :
    (handleRequest parseJSON marshal path streaming config sim uLat uErr).1 =
      { contentType := "application/json"
        status := config.errorResponse.code
        bodyFrames :=
          [Frame.raw (marshal (convertToJSONCompatible config.errorResponse.body))] } := by
  simp only [handleRequest, herr, if_true]
  rfl

/-- Witness for C3 (amended) at the sample configuration with a streaming
request. -/
theorem simulated_error_response_shape_witness :
    (handleRequest parseNone marshalConst "/v1/test" true sampleConfig
        (NewErrorSimulator 1) 0 (1 / 3)).1 =
      { contentType := "application/json"
        status := sampleConfig.errorResponse.code
        bodyFrames :=
          [Frame.raw (marshalConst
            (convertToJSONCompatible sampleConfig.errorResponse.body))] } :=
  simulated_error_response_shape parseNone marshalConst "/v1/test" true
    sampleConfig (NewErrorSimulator 1) 0 (1 / 3)
    (by norm_num [ShouldError, NewErrorSimulator])

/-! ## Claim C4 -/

/-- At target frequency 1, from a state where every past call fired,
`ShouldError` fires for any draw below 1: the observed rate
`r / (r + 1)` is below the target 1, so the adjusted probability is
`3/2`. -/
theorem ShouldError_fires_at_one (sim : ErrorSimulator)
    (htf : sim.targetFrequency = 1) (hinv : sim.totalErrors = sim.totalRequests)
    (u : ℚ) (hu1 : u < 1) :
    (ShouldError sim u).1 = true := by
  rw [ShouldError_decision, decide_eq_true_eq]
  have hpos : (0 : ℚ) < (sim.totalRequests : ℚ) + 1 := by positivity
  have hrate : (sim.totalErrors : ℚ) / ((sim.totalRequests : ℚ) + 1) < 1 := by
    rw [div_lt_one hpos, hinv]
    linarith
  unfold adjustedProbSpec
  rw [htf, if_pos hrate]
  linarith

/-- At target frequency 1 the state keeps `totalErrors = totalRequests`. -/
theorem ShouldError_keeps_full_at_one (sim : ErrorSimulator)
    (htf : sim.targetFrequency = 1) (hinv : sim.totalErrors = sim.totalRequests)
    (u : ℚ) (hu1 : u < 1) :
    (ShouldError sim u).2.totalErrors = (ShouldError sim u).2.totalRequests := by
  rw [ShouldError_errors, ShouldError_requests, hinv,
    ShouldError_fires_at_one sim htf hinv u hu1]
  simp

/-- At target frequency 0 the adjusted probability is 0 in every branch,
so `ShouldError` never fires for a non-negative draw. -/
theorem ShouldError_never_at_zero (sim : ErrorSimulator)
    (htf : sim.targetFrequency = 0) (u : ℚ) (hu0 : 0 ≤ u) :
    (ShouldError sim u).1 = false := by
  rw [ShouldError_decision]
  unfold adjustedProbSpec
  rw [htf]
  simp only [zero_mul, ite_self]
  simp only [decide_eq_false_iff_not, not_lt]
  exact hu0

/-- `runDispatch` on a cons peels one `handleRequest` call. -/
theorem runDispatch_cons (parseJSON : String → Option JValue)
    (marshal : GoValue → List Nat) (path : String) (streaming : Bool)
    (config : Config) (sim : ErrorSimulator) (uLat uErr : ℚ)
    (rest : List (ℚ × ℚ)) :
    runDispatch parseJSON marshal path streaming config sim
        ((uLat, uErr) :: rest) =
      (handleRequest parseJSON marshal path streaming config sim uLat uErr).1 ::
        runDispatch parseJSON marshal path streaming config
          (handleRequest parseJSON marshal path streaming config sim uLat uErr).2
          rest := rfl

/-- At target frequency 1, every dispatched response is the simulated
error response, for any sequence of error draws below 1. -/
theorem runDispatch_all_error (parseJSON : String → Option JValue)
    (marshal : GoValue → List Nat) (path : String) (streaming : Bool)
    (config : Config) :
    ∀ (draws : List (ℚ × ℚ)) (sim : ErrorSimulator),
    sim.targetFrequency = 1 → sim.totalErrors = sim.totalRequests →
    (∀ d ∈ draws, d.2 < 1) →
    ∀ resp ∈ runDispatch parseJSON marshal path streaming config sim draws,
      resp = simulateError config marshal := by
  intro draws
  induction draws with
  | nil =>
    intro sim _ _ _ resp hresp
    simp [runDispatch] at hresp
  | cons d rest ih =>
    intro sim htf hinv hdraws resp hresp
    obtain ⟨uLat, uErr⟩ := d
    have hu1 : uErr < 1 := hdraws (uLat, uErr) (List.mem_cons_self _ _)
    have hb := ShouldError_fires_at_one sim htf hinv uErr hu1
    have hhr1 : (handleRequest parseJSON marshal path streaming config sim uLat uErr).1 =
        simulateError config marshal := by
      simp [handleRequest, hb]
    have hhr2 : (handleRequest parseJSON marshal path streaming config sim uLat uErr).2 =
        (ShouldError sim uErr).2 := by
      simp [handleRequest, hb]
    rw [runDispatch_cons] at hresp
    rcases List.mem_cons.mp hresp with h | h
    · rw [h, hhr1]
    · refine ih (handleRequest parseJSON marshal path streaming config sim uLat uErr).2
        ?_ ?_ (fun d hd => hdraws d (List.mem_cons_of_mem _ hd)) resp h
      · rw [hhr2, ShouldError_target, htf]
      · rw [hhr2]
        exact ShouldError_keeps_full_at_one sim htf hinv uErr hu1

/-- At target frequency 0, every dispatched response has status 200, for
any sequence of non-negative error draws. -/
theorem runDispatch_never_error (parseJSON : String → Option JValue)
    (marshal : GoValue → List Nat) (path : String) (streaming : Bool)
    (config : Config) :
    ∀ (draws : List (ℚ × ℚ)) (sim : ErrorSimulator),
    sim.targetFrequency = 0 →
    (∀ d ∈ draws, 0 ≤ d.2) →
    ∀ resp ∈ runDispatch parseJSON marshal path streaming config sim draws,
      resp.status = 200 := by
  intro draws
  induction draws with
  | nil =>
    intro sim _ _ resp hresp
    simp [runDispatch] at hresp
  | cons d rest ih =>
    intro sim htf hdraws resp hresp
    obtain ⟨uLat, uErr⟩ := d
    have hu0 : 0 ≤ uErr := hdraws (uLat, uErr) (List.mem_cons_self _ _)
    have hb := ShouldError_never_at_zero sim htf uErr hu0
    have hhr1 : (handleRequest parseJSON marshal path streaming config sim uLat uErr).1.status =
        200 := by
      cases streaming <;>
        simp [handleRequest, hb, streamResponse, normalResponse]
    have hhr2 : (handleRequest parseJSON marshal path streaming config sim uLat uErr).2 =
        (ShouldError sim uErr).2 := by
      cases streaming <;> simp [handleRequest, hb]
    rw [runDispatch_cons] at hresp
    rcases List.mem_cons.mp hresp with h | h
    · rw [h]; exact hhr1
    · refine ih (handleRequest parseJSON marshal path streaming config sim uLat uErr).2
        ?_ (fun d hd => hdraws d (List.mem_cons_of_mem _ hd)) resp h
      rw [hhr2, ShouldError_target, htf]

/-- Claim C4: at the boundary target frequencies the simulator is
deterministic over every sequence of uniform draws in `[0, 1)`: with
target 1 every dispatched response is exactly the simulated error
response (configured status and body), streaming requested or not, and
with target 0 every dispatched response has status 200 — in particular it
never carries the configured error status whenever that status is not
200. -/
theorem boundary_frequency_determinism (parseJSON : String → Option JValue)
    (marshal : GoValue → List Nat) (path : String) (streaming : Bool)
    (config : Config) (draws : List (ℚ × ℚ))
    (hdraws : ∀ d ∈ draws, 0 ≤ d.2 ∧ d.2 < 1) :
    (∀ resp ∈ runDispatch parseJSON marshal path streaming config
        (NewErrorSimulator 1) draws,
      resp = simulateError config marshal ∧
      resp.status = config.errorResponse.code) ∧
    (∀ resp ∈ runDispatch parseJSON marshal path streaming config
        (NewErrorSimulator 0) draws,
      resp.status = 200 ∧
      (config.errorResponse.code ≠ 200 →
        resp.status ≠ config.errorResponse.code)) := by
  constructor
  · intro resp hresp
    have h := runDispatch_all_error parseJSON marshal path streaming config
      draws (NewErrorSimulator 1) rfl rfl (fun d hd => (hdraws d hd).2) resp hresp
    exact ⟨h, by rw [h]; rfl⟩
  · intro resp hresp
    have h := runDispatch_never_error parseJSON marshal path streaming config
      draws (NewErrorSimulator 0) rfl (fun d hd => (hdraws d hd).1) resp hresp
    refine ⟨h, fun hcode => ?_⟩
    rw [h]
    exact Ne.symm hcode

/-- Witness for C4 with one dispatch, draws `(0, 1/2)`, at the sample
configuration. -/
theorem boundary_frequency_determinism_witness :
    (handleRequest parseNone marshalConst "/v1/test" false sampleConfig
        (NewErrorSimulator 1) 0 (1 / 2)).1 = simulateError sampleConfig marshalConst ∧
    (handleRequest parseNone marshalConst "/v1/test" false sampleConfig
        (NewErrorSimulator 0) 0 (1 / 2)).1.status = 200 := by
  have h := boundary_frequency_determinism parseNone marshalConst "/v1/test"
    false sampleConfig [(0, 1 / 2)]
    (by rintro d hd; simp only [List.mem_singleton] at hd; subst hd; norm_num)
  constructor
  · exact (h.1 _ (by simp [runDispatch])).1
  · exact (h.2 _ (by simp [runDispatch])).1

end MockAPI
